import Mathlib

/-!
# Scratch transfer buffer of `linux/src/main.cpp`

A shallow embedding of the five JNI entry points of `main.cpp`
(`Java_Main_nativeWriteOutDirectBuffer`, `Java_Main_nativeReadInDirectBuffer`,
`Java_Main_nativeWriteOutJArray`, `Java_Main_nativeReadJArray`,
`Java_Main_nativeProcessDirectBuffer`) together with the static array
`localBuffer[MAX_CYCLE_LENGTH]` they share.

* A `jfloat` is kept as its 32-bit pattern, so list equality is bit-for-bit
  equality.  Arithmetic on it is IEEE 754 binary32 with round-to-nearest-even,
  which is what `float` is on the Linux target of the sources.
* Memory is modelled at the granularity of one `float`.  Every byte length the
  program hands to `memcpy` is `count * sizeof(float)` reduced modulo `2^64`,
  hence a multiple of four (`byteLength_mod_four`).
* A call ends in one of four ways, see `Outcome`.  Behaviour the C++ standard
  leaves undefined (a copy or a read outside a region) is the outcome
  `Outcome.undefined`; nothing is claimed about it.
-/

set_option maxRecDepth 100000
set_option exponentiation.threshold 4096

namespace JniBuffer

/-! ## IEEE 754 binary32 arithmetic -/

/-- A `jfloat` (C `float`), identified with its 32-bit pattern. -/
structure jfloat where
  bits : Nat
deriving DecidableEq

/-- A well-formed `jfloat`: the pattern fits in 32 bits. -/
def jfloat.valid (a : jfloat) : Prop := a.bits < 2 ^ 32

instance (a : jfloat) : Decidable a.valid := inferInstanceAs (Decidable (a.bits < 2 ^ 32))

/-- Number of binary digits of `n`; the first argument bounds the recursion. -/
def bitLengthAux : Nat → Nat → Nat
  | 0, _ => 0
  | fuel + 1, n => if n = 0 then 0 else bitLengthAux fuel (n / 2) + 1

/-- Number of binary digits of `n` (`0` for `0`). -/
def bitLength (n : Nat) : Nat := bitLengthAux n n

/-- Digit-by-digit integer square root: candidate bits from `2^(b-1)` down to `2^0`. -/
def isqrtAux : Nat → Nat → Nat → Nat
  | 0, _, r => r
  | b + 1, x, r =>
    if (r + 2 ^ b) * (r + 2 ^ b) ≤ x then isqrtAux b x (r + 2 ^ b) else isqrtAux b x r

/-- Largest `r` with `r * r ≤ x`. -/
def isqrt (x : Nat) : Nat := isqrtAux (bitLength x) x 0

/-- Sign bit. -/
def f32Sign (a : jfloat) : Nat := a.bits / 2 ^ 31 % 2

/-- Biased exponent field (8 bits). -/
def f32Exp (a : jfloat) : Nat := a.bits / 2 ^ 23 % 256

/-- Fraction field (23 bits). -/
def f32Frac (a : jfloat) : Nat := a.bits % 2 ^ 23

/-- Not-a-number: exponent field all ones, fraction non-zero. -/
def f32IsNaN (a : jfloat) : Bool := f32Exp a == 255 && f32Frac a != 0

/-- Infinity: exponent field all ones, fraction zero. -/
def f32IsInf (a : jfloat) : Bool := f32Exp a == 255 && f32Frac a == 0

/-- Magnitude of a finite value, as an integer multiple of `2^-149`. -/
def f32Mag (a : jfloat) : Nat :=
  if f32Exp a = 0 then f32Frac a else (2 ^ 23 + f32Frac a) * 2 ^ (f32Exp a - 1)

/-- Zero of either sign. -/
def f32IsZero (a : jfloat) : Bool := f32Exp a == 0 && f32Frac a == 0

/-- The quiet form of a NaN operand (the result of an operation on a NaN). -/
def f32Quiet (a : jfloat) : jfloat := ⟨a.bits ||| 0x00400000⟩

/-- The NaN produced by an invalid operation on the x86-64 target. The claims
proved below never depend on the payload or sign of a NaN. -/
def f32DefaultNaN : jfloat := ⟨0xFFC00000⟩

/-- Infinity of the given sign. -/
def f32Inf (sign : Nat) : jfloat := ⟨sign * 2 ^ 31 + 0x7F800000⟩

/-- The literal `0.0` converted to `float`: positive zero. -/
def f32Zero : jfloat := ⟨0⟩

/-- Round the exact magnitude `(n + ε) / 2^k` to binary32, nearest-even, where
`0 ≤ ε < 1` and `ε ≠ 0` exactly when `sticky`.  Callers pass `k ≥ 149`.
`w` is the biased exponent minus one (`0` throughout the subnormal range), `sh`
the number of low bits of `n` that do not fit; a carry out of the significand
moves into the exponent field by plain addition, and a magnitude that reaches
the exponent field `255` overflows to infinity. -/
def f32Round (sign n k : Nat) (sticky : Bool) : jfloat :=
  let w := bitLength n + 125 - k
  let sh := k + w - 149
  let q := n / 2 ^ sh
  let r := n % 2 ^ sh
  let half := 2 ^ sh / 2
  let up : Bool := sh != 0 && (decide (half < r) || (r == half && (sticky || q % 2 == 1)))
  let mag := w * 2 ^ 23 + (if up then q + 1 else q)
  ⟨sign * 2 ^ 31 + (if 0x7F800000 ≤ mag then 0x7F800000 else mag)⟩

/-- Binary32 multiplication `a * b`. -/
def f32Mul (a b : jfloat) : jfloat :=
  if f32IsNaN a then f32Quiet a
  else if f32IsNaN b then f32Quiet b
  else if f32IsInf a || f32IsInf b then
    if f32IsZero a || f32IsZero b then f32DefaultNaN
    else f32Inf ((f32Sign a + f32Sign b) % 2)
  else f32Round ((f32Sign a + f32Sign b) % 2) (f32Mag a * f32Mag b) 298 false

/-- Binary32 addition `a + b`. -/
def f32Add (a b : jfloat) : jfloat :=
  if f32IsNaN a then f32Quiet a
  else if f32IsNaN b then f32Quiet b
  else if f32IsInf a then
    if f32IsInf b && f32Sign a != f32Sign b then f32DefaultNaN else a
  else if f32IsInf b then b
  else if f32Sign a = f32Sign b then f32Round (f32Sign a) (f32Mag a + f32Mag b) 149 false
  else if f32Mag a = f32Mag b then f32Zero
  else if f32Mag b < f32Mag a then f32Round (f32Sign a) (f32Mag a - f32Mag b) 149 false
  else f32Round (f32Sign b) (f32Mag b - f32Mag a) 149 false

/-- Binary32 square root, `std::sqrt(float)`. -/
def f32Sqrt (a : jfloat) : jfloat :=
  if f32IsNaN a then f32Quiet a
  else if f32IsZero a then a
  else if f32Sign a = 1 then f32DefaultNaN
  else if f32IsInf a then a
  else
    f32Round 0 (isqrt (f32Mag a * 2 ^ 149)) 149
      (isqrt (f32Mag a * 2 ^ 149) * isqrt (f32Mag a * 2 ^ 149) != f32Mag a * 2 ^ 149)

/-! ## The Java heap, the native static and the JNI functions used -/

/-- The values a 32-bit signed `jint` can take.  The entry points below take
their `count` as an integer and are defined for every integer. -/
def jintRange (c : Int) : Prop := -2 ^ 31 ≤ c ∧ c < 2 ^ 31

instance (c : Int) : Decidable (jintRange c) :=
  inferInstanceAs (Decidable (-2 ^ 31 ≤ c ∧ c < 2 ^ 31))

/-- A reference handed over by the JVM: an index into the heap. -/
abbrev jobject := Nat

/-- What a reference can denote, as far as `main.cpp` can tell. -/
inductive JObject where
  | directBuffer (mem : List jfloat)
  | floatArray (elems : List jfloat)
  | other
deriving DecidableEq

/-- The C macro `MAX_CYCLE_LENGTH`. -/
def MAX_CYCLE_LENGTH : Nat := 4096

/-- The state the entry points act on: the static `localBuffer` and the Java
objects reachable through the handles. -/
structure World where
  localBuffer : List jfloat
  heap : List JObject
deriving DecidableEq

/-- The declaration `static float localBuffer[MAX_CYCLE_LENGTH]` fixes the length. -/
def World.wellFormed (w : World) : Prop := w.localBuffer.length = MAX_CYCLE_LENGTH

instance (w : World) : Decidable w.wellFormed :=
  inferInstanceAs (Decidable (w.localBuffer.length = MAX_CYCLE_LENGTH))

/-- How a call of an entry point ends.
* `returned v w`: normal return of `v` in state `w`;
* `fatalError msg v w`: `env->FatalError(msg)` was called in state `w`; `v` is
  the value of the `return` statement that follows it in the source;
* `exceptionPending cls w`: return with a Java exception of class `cls` pending;
* `undefined`: the call has undefined behaviour. -/
inductive Outcome (α : Type) where
  | returned (value : α) (w : World)
  | fatalError (msg : String) (value : α) (w : World)
  | exceptionPending (cls : String) (w : World)
  | undefined
deriving DecidableEq

/-- Result of one JNI array-region call. -/
inductive RegionResult (α : Type) where
  | done (a : α)
  | arrayIndexOutOfBounds
  | undefined
deriving DecidableEq

/-- JNI `GetDirectBufferAddress`: the memory region of a direct buffer, `NULL`
(`none`) for any other object. -/
def GetDirectBufferAddress (w : World) (buf : jobject) : Option (List jfloat) :=
  match w.heap[buf]? with
  | some (JObject.directBuffer mem) => some mem
  | _ => none

/-- The elements of the Java `float[]` behind a handle. -/
def floatArrayElements (w : World) (array : jobject) : Option (List jfloat) :=
  match w.heap[array]? with
  | some (JObject.floatArray elems) => some elems
  | _ => none

/-- The C constant `sizeof(float)`. -/
def sizeofFloat : Nat := 4

/-- Conversion of an `int` to the 64-bit unsigned `size_t`. -/
def toSizeT (c : Int) : Nat := (c % 2 ^ 64).toNat

/-- The expression `count * sizeof(float)`, evaluated in `size_t`. -/
def byteLength (count : Int) : Nat := toSizeT count * sizeofFloat % 2 ^ 64

/-- The call `memcpy(dst, src, n)` on two regions of floats that do not overlap:
the new contents of `dst`, or `none` (undefined behaviour) when `n` bytes reach
past the end of one of the two regions. -/
def memcpy (dst src : List jfloat) (n : Nat) : Option (List jfloat) :=
  if n ≤ sizeofFloat * src.length ∧ n ≤ sizeofFloat * dst.length then
    some (src.take (n / sizeofFloat) ++ dst.drop (n / sizeofFloat))
  else none

/-- JNI `GetFloatArrayRegion(array, start, len, buf)`: the new contents of the
native buffer `buf`. A region outside the array raises
`ArrayIndexOutOfBoundsException` and copies nothing. -/
def GetFloatArrayRegion (w : World) (array : jobject) (start len : Int)
    (buf : List jfloat) : RegionResult (List jfloat) :=
  match floatArrayElements w array with
  | none => RegionResult.undefined
  | some elems =>
    if start < 0 ∨ len < 0 ∨ start + len > elems.length then RegionResult.arrayIndexOutOfBounds
    else if buf.length < len.toNat then RegionResult.undefined
    else RegionResult.done ((elems.drop start.toNat).take len.toNat ++ buf.drop len.toNat)

/-- JNI `SetFloatArrayRegion(array, start, len, buf)`: the heap after the copy
from the native buffer `buf` into the array. -/
def SetFloatArrayRegion (w : World) (array : jobject) (start len : Int)
    (buf : List jfloat) : RegionResult (List JObject) :=
  match floatArrayElements w array with
  | none => RegionResult.undefined
  | some elems =>
    if start < 0 ∨ len < 0 ∨ start + len > elems.length then RegionResult.arrayIndexOutOfBounds
    else if buf.length < len.toNat then RegionResult.undefined
    else RegionResult.done (w.heap.set array (JObject.floatArray
      (elems.take start.toNat ++ buf.take len.toNat ++ elems.drop (start.toNat + len.toNat))))

/-! ## The five entry points of `main.cpp` -/

/-- Message of the first `FatalError` call. -/
def notDirectMsg : String := "given object is not a direct java.nio.Buffer"

/-- Message of the second `FatalError` call. -/
def countExceedsMsg : String := "count exceeds the maximum cycle length"

/-- Class of the exception raised by the array-region calls. -/
def aioobe : String := "java.lang.ArrayIndexOutOfBoundsException"

/-- Source lines 50-64. -/
def Java_Main_nativeWriteOutDirectBuffer (w : World) (directFloatOutputBuffer : jobject)
    (count : Int) : Outcome Unit :=
  match GetDirectBufferAddress w directFloatOutputBuffer with
  | none => Outcome.fatalError notDirectMsg () w
  | some javaBuffer =>
    if count > MAX_CYCLE_LENGTH then Outcome.fatalError countExceedsMsg () w
    else
      match memcpy w.localBuffer javaBuffer (byteLength count) with
      | none => Outcome.undefined
      | some buf => Outcome.returned () ⟨buf, w.heap⟩

/-- Source lines 76-89. -/
def Java_Main_nativeReadInDirectBuffer (w : World) (directFloatInputBuffer : jobject)
    (count : Int) : Outcome Unit :=
  match GetDirectBufferAddress w directFloatInputBuffer with
  | none => Outcome.fatalError notDirectMsg () w
  | some javaBuffer =>
    if count > MAX_CYCLE_LENGTH then Outcome.fatalError countExceedsMsg () w
    else
      match memcpy javaBuffer w.localBuffer (byteLength count) with
      | none => Outcome.undefined
      | some mem =>
        Outcome.returned () ⟨w.localBuffer,
          w.heap.set directFloatInputBuffer (JObject.directBuffer mem)⟩

/-- Source lines 101-109. -/
def Java_Main_nativeWriteOutJArray (w : World) (floatOutputArray : jobject)
    (count : Int) : Outcome Unit :=
  if count > MAX_CYCLE_LENGTH then Outcome.fatalError countExceedsMsg () w
  else
    match GetFloatArrayRegion w floatOutputArray 0 count w.localBuffer with
    | RegionResult.done buf => Outcome.returned () ⟨buf, w.heap⟩
    | RegionResult.arrayIndexOutOfBounds => Outcome.exceptionPending aioobe w
    | RegionResult.undefined => Outcome.undefined

/-- Source lines 120-128. -/
def Java_Main_nativeReadJArray (w : World) (floatInputArray : jobject)
    (count : Int) : Outcome Unit :=
  if count > MAX_CYCLE_LENGTH then Outcome.fatalError countExceedsMsg () w
  else
    match SetFloatArrayRegion w floatInputArray 0 count w.localBuffer with
    | RegionResult.done heap => Outcome.returned () ⟨w.localBuffer, heap⟩
    | RegionResult.arrayIndexOutOfBounds => Outcome.exceptionPending aioobe w
    | RegionResult.undefined => Outcome.undefined

/-- The loop `for (int i = 0; i < count; i++) result += javaBuffer[i] * javaBuffer[i];`
of source lines 150-152.  The first argument is the number of iterations still
to run, `count - i`; the loop ends when it reaches zero.  Reading `javaBuffer[i]`
outside the region is undefined (`none`). -/
def forLoop (javaBuffer : List jfloat) : Nat → Nat → jfloat → Option jfloat
  | 0, _, result => some result
  | n + 1, i, result =>
    match javaBuffer[i]? with
    | none => none
    | some x => forLoop javaBuffer n (i + 1) (f32Add result (f32Mul x x))

/-- Source lines 141-155.  The loop runs `count` times, not at all for
`count ≤ 0` (`count.toNat`). -/
def Java_Main_nativeProcessDirectBuffer (w : World) (directFloatBuffer : jobject)
    (count : Int) : Outcome jfloat :=
  match GetDirectBufferAddress w directFloatBuffer with
  | none => Outcome.fatalError notDirectMsg f32Zero w
  | some javaBuffer =>
    match forLoop javaBuffer count.toNat 0 f32Zero with
    | none => Outcome.undefined
    | some result => Outcome.returned (f32Sqrt result) w

/-! ## Vocabulary of the specification -/

/-- Negative zero. -/
def f32NegZero : jfloat := ⟨0x80000000⟩

/-- The value `3.0f`. -/
def f32Three : jfloat := ⟨0x40400000⟩

/-- The value `4.0f`. -/
def f32Four : jfloat := ⟨0x40800000⟩

/-- The value `5.0f`. -/
def f32Five : jfloat := ⟨0x40A00000⟩

/-- Left-to-right sum of squares as the specification words it: accumulator
starting at `0.0`, one multiplication and one addition per element, in index
order. -/
def sumOfSquares (xs : List jfloat) : jfloat :=
  xs.foldl (fun acc x => f32Add acc (f32Mul x x)) f32Zero

/-- Euclidean norm as the specification words it: one square root of the sum of
squares. -/
def euclideanNorm (xs : List jfloat) : jfloat := f32Sqrt (sumOfSquares xs)

/-- The state an outcome carries, if any. -/
def Outcome.world? {α : Type} : Outcome α → Option World
  | Outcome.returned _ w => some w
  | Outcome.fatalError _ _ w => some w
  | Outcome.exceptionPending _ w => some w
  | Outcome.undefined => none

/-- The value an outcome carries, if any. -/
def Outcome.value? {α : Type} : Outcome α → Option α
  | Outcome.returned v _ => some v
  | Outcome.fatalError _ v _ => some v
  | Outcome.exceptionPending _ _ => none
  | Outcome.undefined => none

/-- The same outcome with the scratch buffer of its state replaced. -/
def Outcome.withLocalBuffer {α : Type} (buf : List jfloat) : Outcome α → Outcome α
  | Outcome.returned v w => Outcome.returned v ⟨buf, w.heap⟩
  | Outcome.fatalError m v w => Outcome.fatalError m v ⟨buf, w.heap⟩
  | Outcome.exceptionPending c w => Outcome.exceptionPending c ⟨buf, w.heap⟩
  | Outcome.undefined => Outcome.undefined

/-- The two transfer protocols. -/
inductive Variant where
  | direct
  | array
deriving DecidableEq

/-- The region behind a handle, for the protocol at hand. -/
def resolve : Variant → World → jobject → Option (List jfloat)
  | Variant.direct, w, h => GetDirectBufferAddress w h
  | Variant.array, w, h => floatArrayElements w h

/-- Write-From-External in either protocol. -/
def writeFromExternal : Variant → World → jobject → Int → Outcome Unit
  | Variant.direct => Java_Main_nativeWriteOutDirectBuffer
  | Variant.array => Java_Main_nativeWriteOutJArray

/-- Read-To-External in either protocol. -/
def readToExternal : Variant → World → jobject → Int → Outcome Unit
  | Variant.direct => Java_Main_nativeReadInDirectBuffer
  | Variant.array => Java_Main_nativeReadJArray

/-- A state whose scratch buffer holds `1.0f` everywhere, with a direct buffer
(handle 0), a `float[]` (handle 1), an object that is neither (handle 2) and a
second direct buffer and array (handles 3 and 4). -/
def sampleWorld : World :=
  ⟨List.replicate 4096 ⟨0x3F800000⟩,
   [JObject.directBuffer [f32Three, f32Four, f32Five],
    JObject.floatArray [f32Four, f32Five, f32Three],
    JObject.other,
    JObject.directBuffer [f32Zero, f32Zero, f32Zero, f32Zero],
    JObject.floatArray [f32Zero, f32Zero, f32Zero, f32Zero]]⟩

/-- A state with one direct buffer of 4097 zeros (handle 0) and one `float[]` of
4097 zeros (handle 1). -/
def largeWorld : World :=
  ⟨List.replicate 4096 f32Zero,
   [JObject.directBuffer (List.replicate 4097 f32Zero),
    JObject.floatArray (List.replicate 4097 f32Zero)]⟩

/-! ## The integer helpers of the arithmetic -/

theorem bitLengthAux_spec : ∀ (fuel n : Nat), n ≤ fuel →
    n < 2 ^ bitLengthAux fuel n ∧ (n ≠ 0 → 2 ^ (bitLengthAux fuel n - 1) ≤ n) := by
  intro fuel
  induction fuel with
  | zero =>
    intro n hn
    have : n = 0 := by omega
    subst this
    simp [bitLengthAux]
  | succ fuel ih =>
    intro n hn
    by_cases h0 : n = 0
    · subst h0; simp [bitLengthAux]
    · have hdiv : n / 2 ≤ fuel := by omega
      obtain ⟨h1, h2⟩ := ih (n / 2) hdiv
      simp only [bitLengthAux, h0, if_false, Nat.add_sub_cancel]
      constructor
      · rw [Nat.pow_succ]; omega
      · intro _
        by_cases hh : n / 2 = 0
        · have hb : bitLengthAux fuel (n / 2) = 0 := by
            cases fuel <;> simp [bitLengthAux, hh]
          rw [hb]; simp; omega
        · have h3 := h2 hh
          have h4 : 1 ≤ bitLengthAux fuel (n / 2) := by
            by_contra hc
            have hz : bitLengthAux fuel (n / 2) = 0 := by omega
            rw [hz] at h1
            simp at h1
            exact hh h1
          obtain ⟨k, hk⟩ : ∃ k, bitLengthAux fuel (n / 2) = k + 1 := ⟨_, (Nat.sub_add_cancel h4).symm⟩
          rw [hk] at h3 ⊢
          simp only [Nat.add_sub_cancel] at h3
          rw [Nat.pow_succ]; omega

theorem bitLength_spec (n : Nat) :
    n < 2 ^ bitLength n ∧ (n ≠ 0 → 2 ^ (bitLength n - 1) ≤ n) :=
  bitLengthAux_spec n n (Nat.le_refl n)

theorem isqrtAux_spec : ∀ (b x r : Nat), r * r ≤ x → x < (r + 2 ^ b) * (r + 2 ^ b) →
    isqrtAux b x r * isqrtAux b x r ≤ x
      ∧ x < (isqrtAux b x r + 1) * (isqrtAux b x r + 1) := by
  intro b
  induction b with
  | zero =>
    intro x r h1 h2
    simpa [isqrtAux] using ⟨h1, h2⟩
  | succ b ih =>
    intro x r h1 h2
    rw [isqrtAux]
    have hp : 2 ^ (b + 1) = 2 ^ b + 2 ^ b := by rw [Nat.pow_succ]; omega
    split
    · next hle =>
      apply ih x (r + 2 ^ b) hle
      rw [hp] at h2
      rw [Nat.add_assoc]; exact h2
    · next hgt =>
      exact ih x r h1 (by omega)

theorem isqrt_spec (x : Nat) :
    isqrt x * isqrt x ≤ x ∧ x < (isqrt x + 1) * (isqrt x + 1) := by
  apply isqrtAux_spec
  · simp
  · have h := (bitLength_spec x).1
    have h1 : 1 ≤ 2 ^ bitLength x := Nat.one_le_two_pow
    calc x < 2 ^ bitLength x := h
      _ = 2 ^ bitLength x * 1 := (Nat.mul_one _).symm
      _ ≤ 2 ^ bitLength x * 2 ^ bitLength x := Nat.mul_le_mul_left _ h1
      _ = (0 + 2 ^ bitLength x) * (0 + 2 ^ bitLength x) := by rw [Nat.zero_add]

/-! ## The arithmetic stays within 32 bits -/

theorem f32Sign_le_one (a : jfloat) : f32Sign a ≤ 1 := by
  unfold f32Sign; omega

theorem f32Round_valid (sign n k : Nat) (sticky : Bool) (hs : sign ≤ 1) :
    (f32Round sign n k sticky).valid := by
  simp only [jfloat.valid, f32Round]
  generalize bitLength n + 125 - k = w
  generalize (w * 2 ^ 23 + if
    (k + w - 149 != 0 && (decide (2 ^ (k + w - 149) / 2 < n % 2 ^ (k + w - 149))
      || n % 2 ^ (k + w - 149) == 2 ^ (k + w - 149) / 2
        && (sticky || n / 2 ^ (k + w - 149) % 2 == 1))) = true
    then n / 2 ^ (k + w - 149) + 1 else n / 2 ^ (k + w - 149)) = mag
  split <;> omega

theorem f32Quiet_valid (a : jfloat) (ha : a.valid) : (f32Quiet a).valid := by
  simp only [jfloat.valid, f32Quiet] at *
  exact Nat.or_lt_two_pow ha (by norm_num)

theorem f32DefaultNaN_valid : f32DefaultNaN.valid := by
  simp [jfloat.valid, f32DefaultNaN]

theorem f32Zero_valid : f32Zero.valid := by
  simp [jfloat.valid, f32Zero]

theorem f32Inf_valid (sign : Nat) (hs : sign ≤ 1) : (f32Inf sign).valid := by
  simp only [jfloat.valid, f32Inf]; omega

theorem f32Mul_valid (a b : jfloat) (ha : a.valid) (hb : b.valid) : (f32Mul a b).valid := by
  have hs : (f32Sign a + f32Sign b) % 2 ≤ 1 := by omega
  unfold f32Mul
  split
  · exact f32Quiet_valid a ha
  · split
    · exact f32Quiet_valid b hb
    · split
      · split
        · exact f32DefaultNaN_valid
        · exact f32Inf_valid _ hs
      · exact f32Round_valid _ _ _ _ hs

theorem f32Add_valid (a b : jfloat) (ha : a.valid) (hb : b.valid) : (f32Add a b).valid := by
  unfold f32Add
  split
  · exact f32Quiet_valid a ha
  · split
    · exact f32Quiet_valid b hb
    · split
      · split
        · exact f32DefaultNaN_valid
        · exact ha
      · split
        · exact hb
        · split
          · exact f32Round_valid _ _ _ _ (f32Sign_le_one a)
          · split
            · exact f32Zero_valid
            · split
              · exact f32Round_valid _ _ _ _ (f32Sign_le_one a)
              · exact f32Round_valid _ _ _ _ (f32Sign_le_one b)

theorem f32Sqrt_valid (a : jfloat) (ha : a.valid) : (f32Sqrt a).valid := by
  unfold f32Sqrt
  split
  · exact f32Quiet_valid a ha
  · split
    · exact ha
    · split
      · exact f32DefaultNaN_valid
      · split
        · exact ha
        · exact f32Round_valid _ _ _ _ (Nat.zero_le 1)

/-! ## Sanity checks of the arithmetic -/

theorem f32Sqrt_two : f32Sqrt ⟨0x40000000⟩ = ⟨0x3FB504F3⟩ := by decide

theorem f32Add_tenth_fifth : f32Add ⟨0x3DCCCCCD⟩ ⟨0x3E4CCCCD⟩ = ⟨0x3E99999A⟩ := by decide

theorem f32Mul_tenth_tenth : f32Mul ⟨0x3DCCCCCD⟩ ⟨0x3DCCCCCD⟩ = ⟨0x3C23D70B⟩ := by decide

theorem f32Add_tie_to_even : f32Add ⟨0x3F800001⟩ ⟨0x33800000⟩ = ⟨0x3F800002⟩ := by decide

theorem f32Mul_overflow : f32Mul ⟨0x7F7FFFFF⟩ ⟨0x7F7FFFFF⟩ = f32Inf 0 := by decide

theorem f32Sqrt_zero : f32Sqrt f32Zero = f32Zero := by decide

/-! ## The reduction loop -/

theorem forLoop_eq_foldl (buf : List jfloat) :
    ∀ (n i : Nat) (acc : jfloat), i + n ≤ buf.length →
      forLoop buf n i acc
        = some (((buf.drop i).take n).foldl (fun a x => f32Add a (f32Mul x x)) acc) := by
  intro n
  induction n with
  | zero => intro i acc _; simp [forLoop]
  | succ n ih =>
    intro i acc hle
    have hi : i < buf.length := by omega
    have hd : buf.drop i = buf[i] :: buf.drop (i + 1) := List.drop_eq_getElem_cons hi
    rw [forLoop, List.getElem?_eq_getElem hi]
    show forLoop buf n (i + 1) (f32Add acc (f32Mul buf[i] buf[i])) = _
    rw [ih (i + 1) _ (by omega), hd, List.take_succ_cons, List.foldl_cons]

theorem forLoop_out_of_bounds (buf : List jfloat) :
    ∀ (n i : Nat) (acc : jfloat), i ≤ buf.length → buf.length < i + n →
      forLoop buf n i acc = none := by
  intro n
  induction n with
  | zero => intro i acc h1 h2; omega
  | succ n ih =>
    intro i acc h1 h2
    rw [forLoop]
    cases hx : buf[i]? with
    | none => rfl
    | some x =>
      have hi : i < buf.length := by
        rcases List.getElem?_eq_some_iff.mp hx with ⟨hlt, _⟩
        exact hlt
      exact ih (i + 1) _ (by omega) (by omega)

theorem toNat_le_length {c : Int} {n : Nat} (h : c ≤ (n : Int)) : c.toNat ≤ n := by
  omega

theorem processDirectBuffer_resolved (w : World) (h : jobject) (count : Int)
    (region : List jfloat) (hres : GetDirectBufferAddress w h = some region)
    (hn : count ≤ (region.length : Int)) :
    Java_Main_nativeProcessDirectBuffer w h count
      = Outcome.returned (euclideanNorm (region.take count.toNat)) w := by
  have hle : 0 + count.toNat ≤ region.length := by
    have := toNat_le_length hn; omega
  simp [Java_Main_nativeProcessDirectBuffer, hres, forLoop_eq_foldl region _ 0 f32Zero hle,
    euclideanNorm, sumOfSquares]

theorem processDirectBuffer_short (w : World) (h : jobject) (count : Int)
    (region : List jfloat) (hres : GetDirectBufferAddress w h = some region)
    (hn : (region.length : Int) < count) :
    Java_Main_nativeProcessDirectBuffer w h count = Outcome.undefined := by
  have hlt : region.length < 0 + count.toNat := by omega
  have hnone := forLoop_out_of_bounds region count.toNat 0 f32Zero (Nat.zero_le _) hlt
  simp only [Java_Main_nativeProcessDirectBuffer, hres, hnone]

theorem sumOfSquares_zeros :
    ∀ xs : List jfloat, (∀ x ∈ xs, x = f32Zero ∨ x = f32NegZero) → sumOfSquares xs = f32Zero := by
  have key : ∀ xs : List jfloat, (∀ x ∈ xs, x = f32Zero ∨ x = f32NegZero) →
      xs.foldl (fun acc x => f32Add acc (f32Mul x x)) f32Zero = f32Zero := by
    intro xs
    induction xs with
    | nil => intro _; rfl
    | cons x xs ih =>
      intro hz
      have hstep : f32Add f32Zero (f32Mul x x) = f32Zero := by
        rcases hz x (List.mem_cons_self x xs) with hx | hx <;> subst hx <;> decide
      rw [List.foldl_cons, hstep]
      exact ih (fun y hy => hz y (List.mem_cons_of_mem x hy))
  exact key

theorem sampleWorld_direct :
    GetDirectBufferAddress sampleWorld 0 = some [f32Three, f32Four, f32Five] := rfl

/-! ## Compute-Norm -/

/-- C6: for a resolvable region and a count not exceeding its length,
`Java_Main_nativeProcessDirectBuffer` returns normally, in an unchanged state,
the square root of the left-to-right sum of squares of the first `count`
elements of the region (`euclideanNorm`); for `count ≤ 0` that value is `0.0`. -/
theorem C6_norm_is_sqrt_of_sum_of_squares (w : World) (h : jobject) (count : Int)
    (region : List jfloat) (hres : GetDirectBufferAddress w h = some region)
    (hn : count ≤ (region.length : Int)) :
    Java_Main_nativeProcessDirectBuffer w h count
        = Outcome.returned (euclideanNorm (region.take count.toNat)) w
      ∧ (count ≤ 0 →
          Java_Main_nativeProcessDirectBuffer w h count = Outcome.returned f32Zero w) := by
  refine ⟨processDirectBuffer_resolved w h count region hres hn, fun h0 => ?_⟩
  have hz : count.toNat = 0 := by omega
  rw [processDirectBuffer_resolved w h count region hres hn, hz, List.take_zero]
  simp [euclideanNorm, sumOfSquares, f32Sqrt_zero]

theorem C6_witness :
    Java_Main_nativeProcessDirectBuffer sampleWorld 0 3
        = Outcome.returned (euclideanNorm [f32Three, f32Four, f32Five]) sampleWorld
      ∧ Java_Main_nativeProcessDirectBuffer sampleWorld 0 (-1)
        = Outcome.returned f32Zero sampleWorld :=
  ⟨(C6_norm_is_sqrt_of_sum_of_squares sampleWorld 0 3 [f32Three, f32Four, f32Five]
      sampleWorld_direct (by decide)).1,
   (C6_norm_is_sqrt_of_sum_of_squares sampleWorld 0 (-1) [f32Three, f32Four, f32Five]
      sampleWorld_direct (by decide)).2 (by decide)⟩

/-- C7: on a handle that resolves to the region `[3.0, 4.0]`, with count 2,
`Java_Main_nativeProcessDirectBuffer` returns exactly `5.0`. -/
theorem C7_three_four_five (w : World) (h : jobject)
    (hres : GetDirectBufferAddress w h = some [f32Three, f32Four]) :
    Java_Main_nativeProcessDirectBuffer w h 2 = Outcome.returned f32Five w := by
  have hloop : forLoop [f32Three, f32Four] (2 : Int).toNat 0 f32Zero = some ⟨0x41C80000⟩ := by
    decide
  have hsqrt : f32Sqrt ⟨0x41C80000⟩ = f32Five := by decide
  simp only [Java_Main_nativeProcessDirectBuffer, hres, hloop, hsqrt]

theorem C7_witness :
    Java_Main_nativeProcessDirectBuffer ⟨[], [JObject.directBuffer [f32Three, f32Four]]⟩ 0 2
      = Outcome.returned f32Five ⟨[], [JObject.directBuffer [f32Three, f32Four]]⟩ :=
  C7_three_four_five ⟨[], [JObject.directBuffer [f32Three, f32Four]]⟩ 0 rfl

/-- C8: for every `n ≥ 0`, on a handle that resolves to a region of `n` elements
that are all zero (of either sign), `Java_Main_nativeProcessDirectBuffer` called
with count `n` returns `0.0`. -/
theorem C8_norm_of_zeros (w : World) (h : jobject) (n : Nat) (region : List jfloat)
    (hres : GetDirectBufferAddress w h = some region) (hlen : region.length = n)
    (hzero : ∀ x ∈ region, x = f32Zero ∨ x = f32NegZero) :
    Java_Main_nativeProcessDirectBuffer w h (n : Int) = Outcome.returned f32Zero w := by
  have hn : ((n : Nat) : Int) ≤ (region.length : Int) := by omega
  rw [processDirectBuffer_resolved w h n region hres hn]
  have htake : region.take (n : Int).toNat = region := by
    rw [Int.toNat_ofNat, ← hlen, List.take_length]
  rw [htake, euclideanNorm, sumOfSquares_zeros region hzero]
  rfl

theorem C8_witness :
    Java_Main_nativeProcessDirectBuffer sampleWorld 3 4 = Outcome.returned f32Zero sampleWorld :=
  C8_norm_of_zeros sampleWorld 3 4 [f32Zero, f32Zero, f32Zero, f32Zero] rfl rfl (by decide)

/-- C9: `Java_Main_nativeProcessDirectBuffer` neither writes nor reads the scratch
buffer.  For every state, handle and count the call is undefined exactly when the
handle resolves to a region shorter than the count, and otherwise ends in the
state it started in; and two states that differ only in the scratch buffer give
the same outcome, in particular the same returned value. -/
theorem C9_norm_ignores_scratch_buffer (buf1 buf2 : List jfloat) (heap : List JObject)
    (h : jobject) (count : Int) :
    (Java_Main_nativeProcessDirectBuffer ⟨buf1, heap⟩ h count = Outcome.undefined
        ↔ ∃ region, GetDirectBufferAddress ⟨buf1, heap⟩ h = some region
            ∧ (region.length : Int) < count)
      ∧ (Java_Main_nativeProcessDirectBuffer ⟨buf1, heap⟩ h count = Outcome.undefined
          ∨ (Java_Main_nativeProcessDirectBuffer ⟨buf1, heap⟩ h count).world?
              = some ⟨buf1, heap⟩)
      ∧ Java_Main_nativeProcessDirectBuffer ⟨buf2, heap⟩ h count
          = (Java_Main_nativeProcessDirectBuffer ⟨buf1, heap⟩ h count).withLocalBuffer buf2
      ∧ (Java_Main_nativeProcessDirectBuffer ⟨buf2, heap⟩ h count).value?
          = (Java_Main_nativeProcessDirectBuffer ⟨buf1, heap⟩ h count).value? := by
  have hg : ∀ b : List jfloat,
      GetDirectBufferAddress ⟨b, heap⟩ h = GetDirectBufferAddress ⟨buf1, heap⟩ h :=
    fun _ => rfl
  cases hres : GetDirectBufferAddress ⟨buf1, heap⟩ h with
  | none =>
    simp [Java_Main_nativeProcessDirectBuffer, hg, hres, Outcome.world?,
      Outcome.withLocalBuffer, Outcome.value?]
  | some region =>
    by_cases hn : count ≤ (region.length : Int)
    · have e1 := processDirectBuffer_resolved ⟨buf1, heap⟩ h count region hres hn
      have e2 := processDirectBuffer_resolved ⟨buf2, heap⟩ h count region
        ((hg buf2).trans hres) hn
      rw [e1, e2]
      simp [Outcome.world?, Outcome.withLocalBuffer, Outcome.value?]
      omega
    · have e : ∀ b : List jfloat,
          Java_Main_nativeProcessDirectBuffer ⟨b, heap⟩ h count = Outcome.undefined :=
        fun b => processDirectBuffer_short ⟨b, heap⟩ h count region
          ((hg b).trans hres) (by omega)
      rw [e buf1, e buf2]
      simp [Outcome.world?, Outcome.withLocalBuffer, Outcome.value?]
      omega

/-! ## Byte lengths and `memcpy` -/

theorem byteLength_mod_four (count : Int) : byteLength count % sizeofFloat = 0 := by
  simp only [byteLength, sizeofFloat]
  omega

theorem byteLength_of_nonneg (count : Int) (h0 : 0 ≤ count)
    (h1 : count ≤ (MAX_CYCLE_LENGTH : Int)) : byteLength count = sizeofFloat * count.toNat := by
  simp only [byteLength, toSizeT, sizeofFloat, MAX_CYCLE_LENGTH] at *
  norm_num at *
  omega

theorem byteLength_of_negative (count : Int) (hr : jintRange count) (hneg : count < 0) :
    MAX_CYCLE_LENGTH * sizeofFloat < byteLength count := by
  simp only [byteLength, toSizeT, sizeofFloat, MAX_CYCLE_LENGTH, jintRange] at *
  norm_num at *
  omega

theorem memcpy_of_le (dst src : List jfloat) (k : Nat) (hs : k ≤ src.length)
    (hd : k ≤ dst.length) :
    memcpy dst src (sizeofFloat * k) = some (src.take k ++ dst.drop k) := by
  have h1 : sizeofFloat * k ≤ sizeofFloat * src.length := Nat.mul_le_mul_left _ hs
  have h2 : sizeofFloat * k ≤ sizeofFloat * dst.length := Nat.mul_le_mul_left _ hd
  have h3 : sizeofFloat * k / sizeofFloat = k := by simp [sizeofFloat]
  simp [memcpy, h1, h2, h3]

theorem memcpy_too_long (dst src : List jfloat) (n : Nat)
    (h : sizeofFloat * dst.length < n ∨ sizeofFloat * src.length < n) :
    memcpy dst src n = none := by
  have : ¬ (n ≤ sizeofFloat * src.length ∧ n ≤ sizeofFloat * dst.length) := by omega
  simp [memcpy, this]

/-! ## The four transfers on valid requests -/

theorem resolve_heap (v : Variant) (buf1 buf2 : List jfloat) (heap : List JObject)
    (h : jobject) : resolve v ⟨buf1, heap⟩ h = resolve v ⟨buf2, heap⟩ h := by
  cases v <;> rfl

theorem writeOutDirectBuffer_ok (w : World) (h : jobject) (count : Int)
    (region : List jfloat) (hwf : w.wellFormed)
    (hres : GetDirectBufferAddress w h = some region)
    (h0 : 0 ≤ count) (h1 : count ≤ (MAX_CYCLE_LENGTH : Int))
    (hr : count ≤ (region.length : Int)) :
    Java_Main_nativeWriteOutDirectBuffer w h count
      = Outcome.returned ()
          ⟨region.take count.toNat ++ w.localBuffer.drop count.toNat, w.heap⟩ := by
  have hk1 : count.toNat ≤ region.length := by omega
  have hk2 : count.toNat ≤ w.localBuffer.length := by
    rw [hwf]; omega
  have hg : ¬ count > (MAX_CYCLE_LENGTH : Int) := by omega
  simp only [Java_Main_nativeWriteOutDirectBuffer, hres, hg, if_false,
    byteLength_of_nonneg count h0 h1, memcpy_of_le _ _ _ hk1 hk2]

theorem writeOutJArray_ok (w : World) (h : jobject) (count : Int)
    (elems : List jfloat) (hwf : w.wellFormed)
    (hres : floatArrayElements w h = some elems)
    (h0 : 0 ≤ count) (h1 : count ≤ (MAX_CYCLE_LENGTH : Int))
    (hr : count ≤ (elems.length : Int)) :
    Java_Main_nativeWriteOutJArray w h count
      = Outcome.returned ()
          ⟨elems.take count.toNat ++ w.localBuffer.drop count.toNat, w.heap⟩ := by
  have hk2 : ¬ w.localBuffer.length < count.toNat := by
    rw [hwf]; omega
  have hg : ¬ count > (MAX_CYCLE_LENGTH : Int) := by omega
  have hb : ¬ ((0 : Int) < 0 ∨ count < 0 ∨ 0 + count > (elems.length : Int)) := by omega
  simp only [Java_Main_nativeWriteOutJArray, GetFloatArrayRegion, hres, hg, if_false, hb, hk2,
    Int.toNat_zero, List.drop_zero]

theorem writeFromExternal_ok (v : Variant) (w : World) (h : jobject) (count : Int)
    (region : List jfloat) (hwf : w.wellFormed) (hres : resolve v w h = some region)
    (h0 : 0 ≤ count) (h1 : count ≤ (MAX_CYCLE_LENGTH : Int))
    (hr : count ≤ (region.length : Int)) :
    writeFromExternal v w h count
      = Outcome.returned ()
          ⟨region.take count.toNat ++ w.localBuffer.drop count.toNat, w.heap⟩ := by
  cases v with
  | direct => exact writeOutDirectBuffer_ok w h count region hwf hres h0 h1 hr
  | array => exact writeOutJArray_ok w h count region hwf hres h0 h1 hr

theorem getElem?_take_append_drop_lt (src buf : List jfloat) (k i : Nat)
    (hk : k ≤ src.length) (hi : i < k) : (src.take k ++ buf.drop k)[i]? = src[i]? := by
  have hl : i < (src.take k).length := by rw [List.length_take]; omega
  rw [List.getElem?_append_left hl, List.getElem?_take_of_lt hi]

theorem getElem?_take_append_drop_ge (src buf : List jfloat) (k i : Nat)
    (hk : k ≤ src.length) (hi : k ≤ i) : (src.take k ++ buf.drop k)[i]? = buf[i]? := by
  have hl : (src.take k).length = k := by rw [List.length_take]; omega
  rw [List.getElem?_append_right (by omega), hl, List.getElem?_drop]
  congr 1
  omega

theorem take_take_append_drop (src buf : List jfloat) (k : Nat) (hk : k ≤ src.length) :
    (src.take k ++ buf.drop k).take k = src.take k := by
  apply List.take_left'
  rw [List.length_take]; omega

theorem wellFormed_after_write (w : World) (src : List jfloat) (k : Nat)
    (hwf : w.wellFormed) (hk : k ≤ src.length) (hk2 : k ≤ MAX_CYCLE_LENGTH) :
    World.wellFormed ⟨src.take k ++ w.localBuffer.drop k, w.heap⟩ := by
  simp only [World.wellFormed] at *
  rw [List.length_append, List.length_take, List.length_drop, hwf]
  omega

theorem resolve_index_lt (v : Variant) (w : World) (h : jobject) (region : List jfloat)
    (hres : resolve v w h = some region) : h < w.heap.length := by
  by_contra hge
  have hnone : w.heap[h]? = none := List.getElem?_eq_none (Nat.le_of_not_lt hge)
  cases v <;> simp [resolve, GetDirectBufferAddress, floatArrayElements, hnone] at hres

theorem readInDirectBuffer_ok (w : World) (h : jobject) (count : Int)
    (region : List jfloat) (hwf : w.wellFormed)
    (hres : GetDirectBufferAddress w h = some region)
    (h0 : 0 ≤ count) (h1 : count ≤ (MAX_CYCLE_LENGTH : Int))
    (hr : count ≤ (region.length : Int)) :
    Java_Main_nativeReadInDirectBuffer w h count
      = Outcome.returned ()
          ⟨w.localBuffer, w.heap.set h
            (JObject.directBuffer (w.localBuffer.take count.toNat ++ region.drop count.toNat))⟩ := by
  have hk1 : count.toNat ≤ region.length := by omega
  have hk2 : count.toNat ≤ w.localBuffer.length := by
    rw [hwf]; omega
  have hg : ¬ count > (MAX_CYCLE_LENGTH : Int) := by omega
  simp only [Java_Main_nativeReadInDirectBuffer, hres, hg, if_false,
    byteLength_of_nonneg count h0 h1, memcpy_of_le _ _ _ hk2 hk1]

theorem readJArray_ok (w : World) (h : jobject) (count : Int)
    (elems : List jfloat) (hwf : w.wellFormed)
    (hres : floatArrayElements w h = some elems)
    (h0 : 0 ≤ count) (h1 : count ≤ (MAX_CYCLE_LENGTH : Int))
    (hr : count ≤ (elems.length : Int)) :
    Java_Main_nativeReadJArray w h count
      = Outcome.returned ()
          ⟨w.localBuffer, w.heap.set h
            (JObject.floatArray (w.localBuffer.take count.toNat ++ elems.drop count.toNat))⟩ := by
  have hk2 : ¬ w.localBuffer.length < count.toNat := by
    rw [hwf]; omega
  have hg : ¬ count > (MAX_CYCLE_LENGTH : Int) := by omega
  have hb : ¬ ((0 : Int) < 0 ∨ count < 0 ∨ 0 + count > (elems.length : Int)) := by omega
  simp only [Java_Main_nativeReadJArray, SetFloatArrayRegion, hres, hg, if_false, hb, hk2,
    Int.toNat_zero, List.take_zero, List.nil_append, Nat.zero_add]

theorem readToExternal_ok (v : Variant) (w : World) (h : jobject) (count : Int)
    (region : List jfloat) (hwf : w.wellFormed) (hres : resolve v w h = some region)
    (h0 : 0 ≤ count) (h1 : count ≤ (MAX_CYCLE_LENGTH : Int))
    (hr : count ≤ (region.length : Int)) :
    ∃ heap2 : List JObject,
      readToExternal v w h count = Outcome.returned () ⟨w.localBuffer, heap2⟩
        ∧ resolve v ⟨w.localBuffer, heap2⟩ h
            = some (w.localBuffer.take count.toNat ++ region.drop count.toNat) := by
  have hlt := resolve_index_lt v w h region hres
  cases v with
  | direct =>
    refine ⟨_, readInDirectBuffer_ok w h count region hwf hres h0 h1 hr, ?_⟩
    simp [resolve, GetDirectBufferAddress, List.getElem?_set, hlt]
  | array =>
    refine ⟨_, readJArray_ok w h count region hwf hres h0 h1 hr, ?_⟩
    simp [resolve, floatArrayElements, List.getElem?_set, hlt]

/-! ## Requests on which a write does not return normally -/

theorem writeOutDirectBuffer_negative (w : World) (h : jobject) (count : Int)
    (region : List jfloat) (hwf : w.wellFormed)
    (hres : GetDirectBufferAddress w h = some region)
    (hr : jintRange count) (hneg : count < 0) :
    Java_Main_nativeWriteOutDirectBuffer w h count = Outcome.undefined := by
  have hg : ¬ count > (MAX_CYCLE_LENGTH : Int) := by
    simp only [MAX_CYCLE_LENGTH]; omega
  have hb := byteLength_of_negative count hr hneg
  have hm : memcpy w.localBuffer region (byteLength count) = none := by
    apply memcpy_too_long
    left
    rw [hwf, Nat.mul_comm]
    exact hb
  simp only [Java_Main_nativeWriteOutDirectBuffer, hres, hg, if_false, hm]

theorem readInDirectBuffer_negative (w : World) (h : jobject) (count : Int)
    (region : List jfloat) (hwf : w.wellFormed)
    (hres : GetDirectBufferAddress w h = some region)
    (hr : jintRange count) (hneg : count < 0) :
    Java_Main_nativeReadInDirectBuffer w h count = Outcome.undefined := by
  have hg : ¬ count > (MAX_CYCLE_LENGTH : Int) := by
    simp only [MAX_CYCLE_LENGTH]; omega
  have hb := byteLength_of_negative count hr hneg
  have hm : memcpy region w.localBuffer (byteLength count) = none := by
    apply memcpy_too_long
    right
    rw [hwf, Nat.mul_comm]
    exact hb
  simp only [Java_Main_nativeReadInDirectBuffer, hres, hg, if_false, hm]

theorem writeOutDirectBuffer_short (w : World) (h : jobject) (count : Int)
    (region : List jfloat) (hres : GetDirectBufferAddress w h = some region)
    (h0 : 0 ≤ count) (h1 : count ≤ (MAX_CYCLE_LENGTH : Int))
    (hs : (region.length : Int) < count) :
    Java_Main_nativeWriteOutDirectBuffer w h count = Outcome.undefined := by
  have hg : ¬ count > (MAX_CYCLE_LENGTH : Int) := by omega
  have hm : memcpy w.localBuffer region (byteLength count) = none := by
    apply memcpy_too_long
    right
    rw [byteLength_of_nonneg count h0 h1]
    simp only [sizeofFloat]
    omega
  simp only [Java_Main_nativeWriteOutDirectBuffer, hres, hg, if_false, hm]

theorem writeOutJArray_out_of_bounds (w : World) (h : jobject) (count : Int)
    (elems : List jfloat) (hres : floatArrayElements w h = some elems)
    (h1 : count ≤ (MAX_CYCLE_LENGTH : Int))
    (hb : count < 0 ∨ (elems.length : Int) < count) :
    Java_Main_nativeWriteOutJArray w h count = Outcome.exceptionPending aioobe w := by
  have hg : ¬ count > (MAX_CYCLE_LENGTH : Int) := by omega
  have hc : ((0 : Int) < 0 ∨ count < 0 ∨ 0 + count > (elems.length : Int)) := by omega
  simp only [Java_Main_nativeWriteOutJArray, GetFloatArrayRegion, hres, hg, if_false, hc,
    if_true]

theorem writeFromExternal_returned (v : Variant) (w w1 : World) (h : jobject) (count : Int)
    (hwf : w.wellFormed) (hr : jintRange count)
    (hok : writeFromExternal v w h count = Outcome.returned () w1) :
    0 ≤ count ∧ count ≤ (MAX_CYCLE_LENGTH : Int) ∧
      ∃ region, resolve v w h = some region ∧ count ≤ (region.length : Int) ∧
        w1 = ⟨region.take count.toNat ++ w.localBuffer.drop count.toNat, w.heap⟩ := by
  by_cases hg : count > (MAX_CYCLE_LENGTH : Int)
  · cases v <;>
      simp [writeFromExternal, Java_Main_nativeWriteOutDirectBuffer,
        Java_Main_nativeWriteOutJArray, hg] at hok
    split at hok <;> simp at hok
  · have h1 : count ≤ (MAX_CYCLE_LENGTH : Int) := by omega
    cases hres : resolve v w h with
    | none =>
      cases v with
      | direct =>
        have hres2 : GetDirectBufferAddress w h = none := hres
        simp [writeFromExternal, Java_Main_nativeWriteOutDirectBuffer, hres2] at hok
      | array =>
        have hres2 : floatArrayElements w h = none := hres
        simp [writeFromExternal, Java_Main_nativeWriteOutJArray, GetFloatArrayRegion, hres2,
          hg] at hok
    | some region =>
      by_cases h0 : 0 ≤ count
      · by_cases hl : count ≤ (region.length : Int)
        · refine ⟨h0, h1, region, rfl, hl, ?_⟩
          have e := writeFromExternal_ok v w h count region hwf hres h0 h1 hl
          rw [e] at hok
          injection hok with _ hw
          exact hw.symm
        · exfalso
          cases v with
          | direct =>
            have e := writeOutDirectBuffer_short w h count region hres h0 h1 (by omega)
            rw [writeFromExternal, e] at hok
            cases hok
          | array =>
            have e := writeOutJArray_out_of_bounds w h count region hres h1
              (Or.inr (by omega))
            rw [writeFromExternal, e] at hok
            cases hok
      · exfalso
        cases v with
        | direct =>
          have e := writeOutDirectBuffer_negative w h count region hwf hres hr (by omega)
          rw [writeFromExternal, e] at hok
          cases hok
        | array =>
          have e := writeOutJArray_out_of_bounds w h count region hres h1 (Or.inl (by omega))
          rw [writeFromExternal, e] at hok
          cases hok

theorem sampleWorld_wellFormed : sampleWorld.wellFormed :=
  List.length_replicate 4096 _

theorem largeWorld_wellFormed : largeWorld.wellFormed :=
  List.length_replicate 4096 _

theorem largeWorld_direct :
    GetDirectBufferAddress largeWorld 0 = some (List.replicate 4097 f32Zero) := rfl

/-! ## Transfers -/

/-- C1: round trip.  For a count `c` with `0 ≤ c ≤ 4096`, any contents of the
scratch buffer, and source and destination handles that resolve to regions of
at least `c` elements, Write-From-External followed by Read-To-External both
return normally and leave the first `c` elements of the destination equal, bit
for bit, to the first `c` elements of the source.  `v` ranges over the direct
pair and the array-copy pair. -/
theorem C1_round_trip (v : Variant) (w : World) (src dst : jobject) (c : Int)
    (srcRegion dstRegion : List jfloat) (hwf : w.wellFormed)
    (h0 : 0 ≤ c) (h1 : c ≤ (MAX_CYCLE_LENGTH : Int))
    (hsrc : resolve v w src = some srcRegion) (hdst : resolve v w dst = some dstRegion)
    (hs : c ≤ (srcRegion.length : Int)) (hd : c ≤ (dstRegion.length : Int)) :
    ∃ (w1 w2 : World) (out : List jfloat),
      writeFromExternal v w src c = Outcome.returned () w1
        ∧ readToExternal v w1 dst c = Outcome.returned () w2
        ∧ resolve v w2 dst = some out
        ∧ out.take c.toNat = srcRegion.take c.toNat := by
  have hk : c.toNat ≤ srcRegion.length := by omega
  have hk2 : c.toNat ≤ MAX_CYCLE_LENGTH := by omega
  have hwf1 := wellFormed_after_write w srcRegion c.toNat hwf hk hk2
  have hdst1 : resolve v ⟨srcRegion.take c.toNat ++ w.localBuffer.drop c.toNat, w.heap⟩ dst
      = some dstRegion := by
    rw [← hdst]; exact resolve_heap v _ _ _ _
  obtain ⟨heap2, hread, hout⟩ := readToExternal_ok v _ dst c dstRegion hwf1 hdst1 h0 h1 hd
  refine ⟨_, _, _, writeFromExternal_ok v w src c srcRegion hwf hsrc h0 h1 hs, hread, hout, ?_⟩
  have hlen : ((srcRegion.take c.toNat ++ w.localBuffer.drop c.toNat).take c.toNat).length
      = c.toNat := by
    rw [take_take_append_drop _ _ _ hk, List.length_take]; omega
  rw [List.take_left' hlen]
  exact take_take_append_drop _ _ _ hk

theorem C1_witness :
    (∃ (w1 w2 : World) (out : List jfloat),
      writeFromExternal Variant.direct sampleWorld 0 3 = Outcome.returned () w1
        ∧ readToExternal Variant.direct w1 3 3 = Outcome.returned () w2
        ∧ resolve Variant.direct w2 3 = some out
        ∧ out.take (3 : Int).toNat = [f32Three, f32Four, f32Five].take (3 : Int).toNat)
    ∧ (∃ (w1 w2 : World) (out : List jfloat),
      writeFromExternal Variant.array sampleWorld 1 3 = Outcome.returned () w1
        ∧ readToExternal Variant.array w1 4 3 = Outcome.returned () w2
        ∧ resolve Variant.array w2 4 = some out
        ∧ out.take (3 : Int).toNat = [f32Four, f32Five, f32Three].take (3 : Int).toNat) :=
  ⟨C1_round_trip Variant.direct sampleWorld 0 3 3 [f32Three, f32Four, f32Five]
      [f32Zero, f32Zero, f32Zero, f32Zero] sampleWorld_wellFormed (by decide) (by decide)
      rfl rfl (by decide) (by decide),
   C1_round_trip Variant.array sampleWorld 1 4 3 [f32Four, f32Five, f32Three]
      [f32Zero, f32Zero, f32Zero, f32Zero] sampleWorld_wellFormed (by decide) (by decide)
      rfl rfl (by decide) (by decide)⟩

/-- C2: for every count above `MAX_CYCLE_LENGTH` (4096) each of the four transfer
entry points ends in `FatalError`, in a state equal to the one it was called in,
so that no element of the scratch buffer has changed.  The message is
"count exceeds the maximum cycle length", except that the two direct entry
points, which resolve the handle first, report an unresolvable handle instead. -/
theorem C2_oversized_count_rejected (w : World) (h : jobject) (c : Int)
    (hc : c > (MAX_CYCLE_LENGTH : Int)) :
    Java_Main_nativeWriteOutDirectBuffer w h c
        = Outcome.fatalError
            (if (GetDirectBufferAddress w h).isSome then countExceedsMsg else notDirectMsg) () w
      ∧ Java_Main_nativeReadInDirectBuffer w h c
        = Outcome.fatalError
            (if (GetDirectBufferAddress w h).isSome then countExceedsMsg else notDirectMsg) () w
      ∧ Java_Main_nativeWriteOutJArray w h c = Outcome.fatalError countExceedsMsg () w
      ∧ Java_Main_nativeReadJArray w h c = Outcome.fatalError countExceedsMsg () w := by
  cases hres : GetDirectBufferAddress w h with
  | none =>
    simp [Java_Main_nativeWriteOutDirectBuffer, Java_Main_nativeReadInDirectBuffer,
      Java_Main_nativeWriteOutJArray, Java_Main_nativeReadJArray, hres, hc]
  | some region =>
    simp [Java_Main_nativeWriteOutDirectBuffer, Java_Main_nativeReadInDirectBuffer,
      Java_Main_nativeWriteOutJArray, Java_Main_nativeReadJArray, hres, hc]

theorem C2_witness :
    Java_Main_nativeWriteOutDirectBuffer largeWorld 0 4097
        = Outcome.fatalError
            (if (GetDirectBufferAddress largeWorld 0).isSome then countExceedsMsg
              else notDirectMsg) () largeWorld
      ∧ Java_Main_nativeReadInDirectBuffer largeWorld 0 4097
        = Outcome.fatalError
            (if (GetDirectBufferAddress largeWorld 0).isSome then countExceedsMsg
              else notDirectMsg) () largeWorld
      ∧ Java_Main_nativeWriteOutJArray largeWorld 0 4097
        = Outcome.fatalError countExceedsMsg () largeWorld
      ∧ Java_Main_nativeReadJArray largeWorld 0 4097
        = Outcome.fatalError countExceedsMsg () largeWorld :=
  C2_oversized_count_rejected largeWorld 0 4097 (by decide)

/-- C3: on a handle for which `GetDirectBufferAddress` yields null, and for every
count, the direct write, the direct read and Compute-Norm each end in
`FatalError` ("given object is not a direct java.nio.Buffer") in a state equal to
the one they were called in (scratch buffer and heap unchanged); the value of the
`return` statement that follows in Compute-Norm is `0.0`. -/
theorem C3_unresolvable_handle_rejected (w : World) (h : jobject) (c : Int)
    (hres : GetDirectBufferAddress w h = none) :
    Java_Main_nativeWriteOutDirectBuffer w h c = Outcome.fatalError notDirectMsg () w
      ∧ Java_Main_nativeReadInDirectBuffer w h c = Outcome.fatalError notDirectMsg () w
      ∧ Java_Main_nativeProcessDirectBuffer w h c
          = Outcome.fatalError notDirectMsg f32Zero w := by
  simp [Java_Main_nativeWriteOutDirectBuffer, Java_Main_nativeReadInDirectBuffer,
    Java_Main_nativeProcessDirectBuffer, hres]

theorem C3_witness :
    Java_Main_nativeWriteOutDirectBuffer sampleWorld 2 5
        = Outcome.fatalError notDirectMsg () sampleWorld
      ∧ Java_Main_nativeReadInDirectBuffer sampleWorld 2 5
        = Outcome.fatalError notDirectMsg () sampleWorld
      ∧ Java_Main_nativeProcessDirectBuffer sampleWorld 2 5
        = Outcome.fatalError notDirectMsg f32Zero sampleWorld :=
  C3_unresolvable_handle_rejected sampleWorld 2 5 rfl

/-- C4: no implicit zero-fill.  For counts `0 ≤ c2 < c1 ≤ 4096`, a write of `c1`
samples from region `A` followed by a write of `c2` samples from region `B`, each
in either protocol, both return normally and leave the scratch buffer with the
elements `[0, c2)` equal to those of `B` and the elements `[c2, c1)` equal to
those of `A`.  More generally, whenever a write with a `jint` count returns
normally, every element of the scratch buffer at an index `≥ count` has the value
it had before. -/
theorem C4_no_zero_fill (v1 v2 : Variant) (w : World) (hA hB : jobject) (c1 c2 : Int)
    (A B : List jfloat) (hwf : w.wellFormed)
    (h0 : 0 ≤ c2) (h12 : c2 < c1) (h1 : c1 ≤ (MAX_CYCLE_LENGTH : Int))
    (hresA : resolve v1 w hA = some A) (hresB : resolve v2 w hB = some B)
    (hlenA : c1 ≤ (A.length : Int)) (hlenB : c2 ≤ (B.length : Int)) :
    (∃ w1 w2 : World,
      writeFromExternal v1 w hA c1 = Outcome.returned () w1
        ∧ writeFromExternal v2 w1 hB c2 = Outcome.returned () w2
        ∧ (∀ i : Nat, (i : Int) < c2 → w2.localBuffer[i]? = B[i]?)
        ∧ (∀ i : Nat, c2 ≤ (i : Int) → (i : Int) < c1 → w2.localBuffer[i]? = A[i]?))
      ∧ (∀ (v : Variant) (u u1 : World) (h : jobject) (count : Int),
          u.wellFormed → jintRange count →
          writeFromExternal v u h count = Outcome.returned () u1 →
          ∀ i : Nat, count ≤ (i : Int) → u1.localBuffer[i]? = u.localBuffer[i]?) := by
  constructor
  · have hkA : c1.toNat ≤ A.length := by omega
    have hkB : c2.toNat ≤ B.length := by omega
    have hwf1 := wellFormed_after_write w A c1.toNat hwf hkA (by omega)
    have hresB1 : resolve v2 ⟨A.take c1.toNat ++ w.localBuffer.drop c1.toNat, w.heap⟩ hB
        = some B := by
      rw [← hresB]; exact resolve_heap v2 _ _ _ _
    refine ⟨_, _, writeFromExternal_ok v1 w hA c1 A hwf hresA (by omega) h1 hlenA,
      writeFromExternal_ok v2 _ hB c2 B hwf1 hresB1 h0 (by omega) hlenB, ?_, ?_⟩
    · intro i hi
      exact getElem?_take_append_drop_lt B _ c2.toNat i hkB (by omega)
    · intro i hi1 hi2
      show (B.take c2.toNat ++ (A.take c1.toNat ++ w.localBuffer.drop c1.toNat).drop c2.toNat)[i]?
        = A[i]?
      rw [getElem?_take_append_drop_ge B _ c2.toNat i hkB (by omega)]
      exact getElem?_take_append_drop_lt A _ c1.toNat i hkA (by omega)
  · intro v u u1 h count hu hr hok i hi
    obtain ⟨hc0, _, region, _, hlen, hu1⟩ := writeFromExternal_returned v u u1 h count hu hr hok
    rw [hu1]
    exact getElem?_take_append_drop_ge region _ count.toNat i (by omega) (by omega)

theorem C4_witness :
    (∃ w1 w2 : World,
      writeFromExternal Variant.direct sampleWorld 0 3 = Outcome.returned () w1
        ∧ writeFromExternal Variant.array w1 1 2 = Outcome.returned () w2
        ∧ (∀ i : Nat, (i : Int) < 2 → w2.localBuffer[i]? = [f32Four, f32Five, f32Three][i]?)
        ∧ (∀ i : Nat, 2 ≤ (i : Int) → (i : Int) < 3 →
            w2.localBuffer[i]? = [f32Three, f32Four, f32Five][i]?))
      ∧ (∀ u1 : World,
          writeFromExternal Variant.direct sampleWorld 0 3 = Outcome.returned () u1 →
          ∀ i : Nat, (3 : Int) ≤ (i : Int) → u1.localBuffer[i]? = sampleWorld.localBuffer[i]?) :=
  ⟨(C4_no_zero_fill Variant.direct Variant.array sampleWorld 0 1 3 2
      [f32Three, f32Four, f32Five] [f32Four, f32Five, f32Three] sampleWorld_wellFormed
      (by decide) (by decide) (by decide) rfl rfl (by decide) (by decide)).1,
   fun u1 hok =>
    (C4_no_zero_fill Variant.direct Variant.array sampleWorld 0 1 3 2
      [f32Three, f32Four, f32Five] [f32Four, f32Five, f32Three] sampleWorld_wellFormed
      (by decide) (by decide) (by decide) rfl rfl (by decide) (by decide)).2
      Variant.direct sampleWorld u1 0 3 sampleWorld_wellFormed
      (by simp [jintRange]) hok⟩

/-- C5 (as amended): a count above the capacity 4096 is rejected with
"count exceeds the maximum cycle length", the state unchanged, at each of the
four transfer entry points, for every resolvable handle (the array entry points
resolve no handle before the guard).  Compute-Norm has no capacity guard: on a
resolvable handle it is never rejected, and returns the norm normally whenever
the region holds at least `c` elements, also for `c > 4096`. -/
theorem C5_capacity_guard_on_transfers (w : World) (h : jobject) (c : Int)
    (region : List jfloat) (hres : GetDirectBufferAddress w h = some region)
    (hc : c > (MAX_CYCLE_LENGTH : Int)) :
    Java_Main_nativeWriteOutDirectBuffer w h c = Outcome.fatalError countExceedsMsg () w
      ∧ Java_Main_nativeReadInDirectBuffer w h c = Outcome.fatalError countExceedsMsg () w
      ∧ (∀ a : jobject,
          Java_Main_nativeWriteOutJArray w a c = Outcome.fatalError countExceedsMsg () w
            ∧ Java_Main_nativeReadJArray w a c = Outcome.fatalError countExceedsMsg () w)
      ∧ Java_Main_nativeProcessDirectBuffer w h c
          = (if c ≤ (region.length : Int)
              then Outcome.returned (euclideanNorm (region.take c.toNat)) w
              else Outcome.undefined) := by
  refine ⟨?_, ?_, fun a => ⟨?_, ?_⟩, ?_⟩
  · simp [Java_Main_nativeWriteOutDirectBuffer, hres, hc]
  · simp [Java_Main_nativeReadInDirectBuffer, hres, hc]
  · simp [Java_Main_nativeWriteOutJArray, hc]
  · simp [Java_Main_nativeReadJArray, hc]
  · by_cases hlen : c ≤ (region.length : Int)
    · rw [if_pos hlen]; exact processDirectBuffer_resolved w h c region hres hlen
    · rw [if_neg hlen]; exact processDirectBuffer_short w h c region hres (by omega)

theorem C5_witness :
    Java_Main_nativeWriteOutDirectBuffer largeWorld 0 4097
        = Outcome.fatalError countExceedsMsg () largeWorld
      ∧ Java_Main_nativeReadInDirectBuffer largeWorld 0 4097
        = Outcome.fatalError countExceedsMsg () largeWorld
      ∧ (∀ a : jobject,
          Java_Main_nativeWriteOutJArray largeWorld a 4097
              = Outcome.fatalError countExceedsMsg () largeWorld
            ∧ Java_Main_nativeReadJArray largeWorld a 4097
              = Outcome.fatalError countExceedsMsg () largeWorld)
      ∧ Java_Main_nativeProcessDirectBuffer largeWorld 0 4097
          = (if (4097 : Int) ≤ ((List.replicate 4097 f32Zero).length : Int)
              then Outcome.returned
                (euclideanNorm ((List.replicate 4097 f32Zero).take (4097 : Int).toNat))
                largeWorld
              else Outcome.undefined) :=
  C5_capacity_guard_on_transfers largeWorld 0 4097 (List.replicate 4097 f32Zero)
    largeWorld_direct (by decide)

/-- C5 (as stated) fails at Compute-Norm: with count 4097, above the capacity, on
a handle that resolves to a region of 4097 zeros, the call is not rejected but
returns `0.0` normally. -/
theorem C5_counterexample :
    (4097 : Int) > (MAX_CYCLE_LENGTH : Int)
      ∧ GetDirectBufferAddress largeWorld 0 = some (List.replicate 4097 f32Zero)
      ∧ Java_Main_nativeProcessDirectBuffer largeWorld 0 4097
          = Outcome.returned f32Zero largeWorld
      ∧ ¬ ∃ msg v, Java_Main_nativeProcessDirectBuffer largeWorld 0 4097
          = Outcome.fatalError msg v largeWorld := by
  have hret : Java_Main_nativeProcessDirectBuffer largeWorld 0 4097
      = Outcome.returned f32Zero largeWorld := by
    rw [processDirectBuffer_resolved largeWorld 0 4097 (List.replicate 4097 f32Zero)
      largeWorld_direct (by rw [List.length_replicate]; decide)]
    have hz : sumOfSquares ((List.replicate 4097 f32Zero).take (4097 : Int).toNat) = f32Zero := by
      apply sumOfSquares_zeros
      intro x hx
      exact Or.inl (List.eq_of_mem_replicate (List.mem_of_mem_take hx))
    rw [euclideanNorm, hz, f32Sqrt_zero]
  refine ⟨by decide, largeWorld_direct, hret, ?_⟩
  rintro ⟨msg, v, hf⟩
  rw [hret] at hf
  cases hf

/-- C10 fails on negative counts: the count `-1` is a `jint`, passes the guard
`count > MAX_CYCLE_LENGTH`, and `count * sizeof(float)` in `size_t` is
`2^64 - 4`, far above the 16384 bytes of the scratch buffer; the direct write
and the direct read then run `memcpy` past the end of both regions. -/
theorem C10_negative_count_overruns :
    jintRange (-1)
      ∧ ¬ ((-1 : Int) > (MAX_CYCLE_LENGTH : Int))
      ∧ GetDirectBufferAddress sampleWorld 0 = some [f32Three, f32Four, f32Five]
      ∧ byteLength (-1) = 18446744073709551612
      ∧ MAX_CYCLE_LENGTH * sizeofFloat < byteLength (-1)
      ∧ Java_Main_nativeWriteOutDirectBuffer sampleWorld 0 (-1) = Outcome.undefined
      ∧ Java_Main_nativeReadInDirectBuffer sampleWorld 0 (-1) = Outcome.undefined := by
  have hr : jintRange (-1) := by simp [jintRange]
  exact ⟨hr, by decide, rfl, by decide, by decide,
    writeOutDirectBuffer_negative sampleWorld 0 (-1) _ sampleWorld_wellFormed
      sampleWorld_direct hr (by decide),
    readInDirectBuffer_negative sampleWorld 0 (-1) _ sampleWorld_wellFormed
      sampleWorld_direct hr (by decide)⟩

end JniBuffer
